import Mathlib

/-!
# rproxy: API-key gate and host routing of a single-hop reverse proxy

A shallow embedding of `main.go`: the route table built by `NewApiProxy` and the
handler returned by `Auth`.

Conventions of the embedding.

* A Go `map[string]T` is an association list (`GoMap`): indexing returns the first
  binding of a key, assignment replaces every binding of the key, `delete` removes
  every binding of the key.  Only lookups are observable, as in Go.
* `http.Header` is a `GoMap` of value lists.  `Header.Get` and `Header.Del` go through
  the key canonicalisation of `net/textproto`; that function is a parameter `canon` of
  the model, so every theorem holds for each version of the library.
  `CanonicalMIMEHeaderKey` below is the current library function and instantiates the
  parameter at concrete inputs.
* `url.Parse` is a parameter `parse` of `NewApiProxy`.
* A Go function returning `(T, error)` returns a pair of options.
* The handler is a function from the objects it is given (proxy, configuration,
  request) to an `Outcome`: what it wrote with `http.Error`, the requests it passed to
  `rproxy.ServeHTTP`, and the request and proxy objects as they are when it returns.
-/

namespace Rproxy

/-! ## Go maps -/

/-- Go `map[string]β` as an association list. -/
abbrev GoMap (β : Type) := List (String × β)

/-- The comma-ok index expression `v, ok := m[k]`. -/
def GoMap.index {β : Type} (m : GoMap β) (k : String) : Option β :=
  match m with
  | [] => none
  | (k', v) :: rest => if k' = k then some v else GoMap.index rest k

/-- The builtin `delete(m, k)`. -/
def GoMap.delete {β : Type} (m : GoMap β) (k : String) : GoMap β :=
  match m with
  | [] => []
  | (k', v) :: rest => if k' = k then GoMap.delete rest k else (k', v) :: GoMap.delete rest k

/-- The assignment `m[k] = v`. -/
def GoMap.assign {β : Type} (m : GoMap β) (k : String) (v : β) : GoMap β :=
  (k, v) :: GoMap.delete m k

/-! ## net/http and net/url data -/

/-- The type `url.Userinfo`: a user name and an optional password. -/
structure Userinfo where
  username : String
  password : Option String
  deriving DecidableEq, Repr

/-- The type `url.URL`. -/
structure URL where
  Scheme : String
  Opaque : String
  User : Option Userinfo
  Host : String
  Path : String
  RawPath : String
  OmitHost : Bool
  ForceQuery : Bool
  RawQuery : String
  Fragment : String
  RawFragment : String
  deriving DecidableEq, Repr

/-- The type `http.Header`, a `map[string][]string`. -/
abbrev Header := GoMap (List String)

/-- The method `Header.Get`: the first value under the canonical form of `key`, or the
empty string when there is none. -/
def Header.Get (canon : String → String) (h : Header) (key : String) : String :=
  match GoMap.index h (canon key) with
  | some (v :: _) => v
  | _ => ""

/-- The method `Header.Del`: deletes the values under the canonical form of `key`. -/
def Header.Del (canon : String → String) (h : Header) (key : String) : Header :=
  GoMap.delete h (canon key)

/-- The method `Header.Values`: all values under the canonical form of `key`. -/
def Header.Values (canon : String → String) (h : Header) (key : String) : List String :=
  match GoMap.index h (canon key) with
  | some vs => vs
  | none => []

/-- The type `http.Request`, the data fields of a server request.  `Body` is the content
the body reader yields. -/
structure Request where
  Method : String
  URL : URL
  Proto : String
  Header : Header
  Body : String
  ContentLength : Int
  TransferEncoding : List String
  Close : Bool
  Host : String
  Trailer : Rproxy.Header
  RemoteAddr : String
  RequestURI : String
  deriving DecidableEq, Repr

/-- What `http.Error` writes to the response writer: the status code and the body.  The
two response headers it sets are constants of the library and are left out. -/
structure Reply where
  code : Nat
  body : String
  deriving DecidableEq, Repr

/-- The constant `http.StatusUnauthorized`. -/
def StatusUnauthorized : Nat := 401

/-- The constant `http.StatusBadRequest`. -/
def StatusBadRequest : Nat := 400

/-- The function `http.Error(w, error, code)`: status `code`, then `error` and a newline
as the body. -/
def http.Error (error : String) (code : Nat) : Reply :=
  { code := code, body := error ++ "\n" }

/-! ## The program -/

/-- The type `Host` of the configuration: one upstream origin. -/
structure Host where
  URL : String
  deriving DecidableEq, Repr

/-- The type `Config`. -/
structure Config where
  Address : String
  TLS : Bool
  KeyFile : String
  CertFile : String
  Host : List Host
  ApiKey : String
  HostHeader : String
  ApiKeyHeader : String
  LogFile : String
  deriving DecidableEq, Repr

/-- The type `httputil.ReverseProxy`, the one field the program sets. -/
structure ReverseProxy where
  Director : Request → Request

/-- The type `rproxy`. -/
structure rproxy where
  proxies : GoMap URL
  proxy : ReverseProxy
  apiKey : String

/-- The loop of `NewApiProxy` over the remaining origins, `p` being the proxy built so
far. -/
def NewApiProxy.loop (parse : String → Except String URL) :
    List Host → rproxy → Option rproxy × Option String
  | [], p => (some p, none)
  | address :: rest, p =>
    match parse address.URL with
    | .error err => (none, some err)
    | .ok uri =>
      NewApiProxy.loop parse rest { p with proxies := GoMap.assign p.proxies uri.Host uri }

/-- The function `NewApiProxy`. -/
def NewApiProxy (parse : String → Except String URL) (urls : List Host) (apiKey : String) :
    Option rproxy × Option String :=
  let p : rproxy :=
    { proxies := [],
      proxy := { Director := fun r => r },
      apiKey := apiKey }
  NewApiProxy.loop parse urls p

/-- The method `rproxy.ServeHTTP`: hands `req` to the reverse proxy.  `calls` are the
requests handed over so far. -/
def rproxy.ServeHTTP (_p : rproxy) (calls : List Request) (req : Request) : List Request :=
  calls ++ [req]

/-- The observable result of one run of the handler. -/
structure Outcome where
  /-- What the handler wrote with `http.Error`, if it did. -/
  reply : Option Reply
  /-- The requests the handler passed to `rproxy.ServeHTTP`, in order. -/
  forwarded : List Request
  /-- The request object when the handler returns. -/
  req : Request
  /-- The proxy object when the handler returns. -/
  p : rproxy

/-- The handler returned by `Auth(p, conf)`, run on `req`. -/
def Auth (canon : String → String) (p : rproxy) (conf : Config) (req : Request) : Outcome :=
  let clientKey := Header.Get canon req.Header conf.ApiKeyHeader
  if clientKey ≠ conf.ApiKey then
    { reply := some (http.Error "Bad rproxy key" StatusUnauthorized),
      forwarded := [], req := req, p := p }
  else
    let intended := Header.Get canon req.Header conf.HostHeader
    match GoMap.index p.proxies intended with
    | none =>
      { reply := some (http.Error "Bad rproxy host" StatusBadRequest),
        forwarded := [], req := req, p := p }
    | some uri =>
      -- modify the request
      let req := { req with URL := { req.URL with Host := uri.Host } }
      let req := { req with URL := { req.URL with Scheme := uri.Scheme } }
      let req := { req with Host := uri.Host }
      let req := { req with Header := Header.Del canon req.Header conf.ApiKeyHeader }
      let req := { req with Header := Header.Del canon req.Header conf.HostHeader }
      { reply := none, forwarded := rproxy.ServeHTTP p [] req, req := req, p := p }

/-- The request object after the five assignments of the forwarding branch of `Auth`, the
route table having resolved the routing header to `uri`. -/
def rewritten (canon : String → String) (conf : Config) (req : Request) (uri : URL) :
    Request :=
  { req with
    URL := { req.URL with Scheme := uri.Scheme, Host := uri.Host },
    Host := uri.Host,
    Header := Header.Del canon (Header.Del canon req.Header conf.ApiKeyHeader)
      conf.HostHeader }

/-! ## Concrete instances of the library parameters -/

/-- The function `validHeaderFieldByte` of `net/textproto`: the token characters of
RFC 7230, by character code. -/
def validHeaderFieldByte (c : Char) : Bool :=
  let n := c.toNat
  (48 ≤ n && n ≤ 57) || (65 ≤ n && n ≤ 90) || (97 ≤ n && n ≤ 122) ||
    [33, 35, 36, 37, 38, 39, 42, 43, 45, 46, 94, 95, 96, 124, 126].contains n

/-- The canonicalising loop of `canonicalMIMEHeaderKey`: upper case for the first letter
and for a letter after a dash, lower case elsewhere. -/
def canonicalMIMEHeaderKey.loop : Bool → List Char → List Char
  | _, [] => []
  | upper, c :: cs =>
    let c :=
      if upper && (97 ≤ c.toNat && c.toNat ≤ 122) then Char.ofNat (c.toNat - 32)
      else if !upper && (65 ≤ c.toNat && c.toNat ≤ 90) then Char.ofNat (c.toNat + 32)
      else c
    c :: canonicalMIMEHeaderKey.loop (c == '-') cs

/-- The function `textproto.CanonicalMIMEHeaderKey`: a key holding a byte that is not a
token character is returned as it is, any other key is canonicalised. -/
def CanonicalMIMEHeaderKey (s : String) : String :=
  if s.data.all validHeaderFieldByte then
    String.mk (canonicalMIMEHeaderKey.loop true s.data)
  else s

/-- The zero value of `url.URL`. -/
def URL.zero : URL :=
  { Scheme := "", Opaque := "", User := none, Host := "", Path := "", RawPath := "",
    OmitHost := false, ForceQuery := false, RawQuery := "", Fragment := "",
    RawFragment := "" }

/-- The results of `url.Parse` on the origin strings used as concrete inputs below; a
string outside this table is treated as malformed. -/
def sampleParse (s : String) : Except String URL :=
  if s = "http://svc-a.internal" then
    .ok { URL.zero with Scheme := "http", Host := "svc-a.internal" }
  else if s = "https://svc-a.internal" then
    .ok { URL.zero with Scheme := "https", Host := "svc-a.internal" }
  else if s = "http://svc-b.internal:8080" then
    .ok { URL.zero with Scheme := "http", Host := "svc-b.internal:8080" }
  else if s = "svc-a.internal" then
    .ok { URL.zero with Path := "svc-a.internal" }
  else if s = ":svc" then
    .error "parse \":svc\": missing protocol scheme"
  else if s = "%zz" then
    .error "parse \"%zz\": invalid URL escape \"%zz\""
  else
    .error ("parse " ++ s ++ ": malformed")

/-- A configuration with one upstream, `http://svc-a.internal`, and the key `secret`. -/
def sampleConf : Config :=
  { Address := ":8080", TLS := false, KeyFile := "", CertFile := "",
    Host := [{ URL := "http://svc-a.internal" }],
    ApiKey := "secret", HostHeader := "X-Rproxy-Host", ApiKeyHeader := "X-Rproxy-Key",
    LogFile := "rproxy.log" }

/-- The route table of `sampleConf`, as `NewApiProxy` builds it. -/
def sampleProxy : rproxy :=
  { proxies := [("svc-a.internal", { URL.zero with Scheme := "http", Host := "svc-a.internal" })],
    proxy := { Director := fun r => r },
    apiKey := "secret" }

/-- A second configuration: another key, other header names, another upstream. -/
def otherConf : Config :=
  { Address := ":8443", TLS := true, KeyFile := "server.key", CertFile := "server.crt",
    Host := [{ URL := "http://svc-b.internal:8080" }],
    ApiKey := "k-2", HostHeader := "X-Target", ApiKeyHeader := "Authorization",
    LogFile := "other.log" }

/-- The route table of `otherConf`, as `NewApiProxy` builds it. -/
def otherProxy : rproxy :=
  { proxies :=
      [("svc-b.internal:8080", { URL.zero with Scheme := "http", Host := "svc-b.internal:8080" })],
    proxy := { Director := fun r => r },
    apiKey := "k-2" }

/-- The configuration `sampleConf` without an `ApiKey` entry: the field has its zero
value. -/
def keylessConf : Config := { sampleConf with ApiKey := "" }

/-- The route table of `keylessConf`, as `NewApiProxy` builds it. -/
def keylessProxy : rproxy := { sampleProxy with apiKey := "" }

/-- The configuration `sampleConf` with its upstream written without a scheme. -/
def bareConf : Config := { sampleConf with Host := [{ URL := "svc-a.internal" }] }

/-- The route table of `bareConf`, as `NewApiProxy` builds it: `url.Parse` reads
`svc-a.internal` as a path, so the authority is empty. -/
def bareProxy : rproxy :=
  { proxies := [("", { URL.zero with Path := "svc-a.internal" })],
    proxy := { Director := fun r => r },
    apiKey := "secret" }

/-- A server request `GET /items?page=2` with the given headers. -/
def sampleRequest (h : Header) : Request :=
  { Method := "GET",
    URL := { URL.zero with Path := "/items", RawQuery := "page=2" },
    Proto := "HTTP/1.1", Header := h, Body := "", ContentLength := 0,
    TransferEncoding := [], Close := false, Host := "gateway.example", Trailer := [],
    RemoteAddr := "10.0.0.7:51234", RequestURI := "/items?page=2" }

/-! ## The sample route tables are the ones `NewApiProxy` builds -/

theorem sampleProxy_built :
    NewApiProxy sampleParse sampleConf.Host sampleConf.ApiKey = (some sampleProxy, none) :=
  rfl

theorem otherProxy_built :
    NewApiProxy sampleParse otherConf.Host otherConf.ApiKey = (some otherProxy, none) :=
  rfl

/-! ## Lemmas on Go maps -/

theorem GoMap.index_delete_self {β : Type} (m : GoMap β) (k : String) :
    GoMap.index (GoMap.delete m k) k = none := by
  induction m with
  | nil => rfl
  | cons e rest ih =>
    obtain ⟨k', v⟩ := e
    by_cases hk : k' = k
    · simp [GoMap.delete, hk, ih]
    · simp [GoMap.delete, GoMap.index, hk, ih]

theorem GoMap.index_delete_of_ne {β : Type} (m : GoMap β) (k j : String) (hj : j ≠ k) :
    GoMap.index (GoMap.delete m k) j = GoMap.index m j := by
  induction m with
  | nil => rfl
  | cons e rest ih =>
    obtain ⟨k', v⟩ := e
    by_cases hk : k' = k
    · have hkj : ¬ k' = j := fun h => hj (h ▸ hk)
      rw [GoMap.delete, if_pos hk, ih, GoMap.index, if_neg hkj]
    · by_cases hkj : k' = j
      · rw [GoMap.delete, if_neg hk, GoMap.index, if_pos hkj, GoMap.index, if_pos hkj]
      · rw [GoMap.delete, if_neg hk, GoMap.index, if_neg hkj, ih, GoMap.index, if_neg hkj]

theorem GoMap.mem_delete {β : Type} (m : GoMap β) (k : String) (e : String × β) :
    e ∈ GoMap.delete m k ↔ e ∈ m ∧ e.1 ≠ k := by
  induction m with
  | nil => simp [GoMap.delete]
  | cons x rest ih =>
    obtain ⟨k', v⟩ := x
    by_cases hk : k' = k
    · simp only [GoMap.delete, hk, if_true, ih, List.mem_cons]
      constructor
      · rintro ⟨h1, h2⟩
        exact ⟨Or.inr h1, h2⟩
      · rintro ⟨h1 | h1, h2⟩
        · exact absurd (by rw [h1]) h2
        · exact ⟨h1, h2⟩
    · simp only [GoMap.delete, hk, if_false, List.mem_cons, ih]
      constructor
      · rintro (h1 | ⟨h1, h2⟩)
        · exact ⟨Or.inl h1, by rw [h1]; exact hk⟩
        · exact ⟨Or.inr h1, h2⟩
      · rintro ⟨h1 | h1, h2⟩
        · exact Or.inl h1
        · exact Or.inr ⟨h1, h2⟩

theorem GoMap.delete_sublist {β : Type} (m : GoMap β) (k : String) :
    List.Sublist (GoMap.delete m k) m := by
  induction m with
  | nil => exact List.Sublist.slnil
  | cons e rest ih =>
    obtain ⟨k', v⟩ := e
    by_cases hk : k' = k
    · rw [GoMap.delete, if_pos hk]
      exact List.Sublist.cons _ ih
    · rw [GoMap.delete, if_neg hk]
      exact List.Sublist.cons₂ _ ih

theorem GoMap.index_assign_self {β : Type} (m : GoMap β) (k : String) (v : β) :
    GoMap.index (GoMap.assign m k v) k = some v := by
  simp [GoMap.assign, GoMap.index]

theorem GoMap.index_assign_of_ne {β : Type} (m : GoMap β) (k j : String) (v : β)
    (hj : j ≠ k) : GoMap.index (GoMap.assign m k v) j = GoMap.index m j := by
  have hkj : ¬ k = j := fun h => hj h.symm
  simp [GoMap.assign, GoMap.index, hkj, GoMap.index_delete_of_ne m k j hj]

/-! ## Lemmas on the handler -/

theorem Auth_of_bad_key (canon : String → String) (p : rproxy) (conf : Config)
    (req : Request) (h : Header.Get canon req.Header conf.ApiKeyHeader ≠ conf.ApiKey) :
    Auth canon p conf req =
      { reply := some (http.Error "Bad rproxy key" StatusUnauthorized),
        forwarded := [], req := req, p := p } := by
  simp [Auth, h]

theorem Auth_of_bad_host (canon : String → String) (p : rproxy) (conf : Config)
    (req : Request) (hkey : Header.Get canon req.Header conf.ApiKeyHeader = conf.ApiKey)
    (hhost : GoMap.index p.proxies (Header.Get canon req.Header conf.HostHeader) = none) :
    Auth canon p conf req =
      { reply := some (http.Error "Bad rproxy host" StatusBadRequest),
        forwarded := [], req := req, p := p } := by
  simp [Auth, hkey, hhost]

theorem Auth_of_route (canon : String → String) (p : rproxy) (conf : Config)
    (req : Request) (uri : URL)
    (hkey : Header.Get canon req.Header conf.ApiKeyHeader = conf.ApiKey)
    (hhost : GoMap.index p.proxies (Header.Get canon req.Header conf.HostHeader) = some uri) :
    Auth canon p conf req =
      { reply := none, forwarded := [rewritten canon conf req uri],
        req := rewritten canon conf req uri, p := p } := by
  simp [Auth, hkey, hhost, rewritten, rproxy.ServeHTTP]

/-- Every run of the handler is one of the three cases above. -/
theorem Auth_cases (canon : String → String) (p : rproxy) (conf : Config) (req : Request) :
    (Header.Get canon req.Header conf.ApiKeyHeader ≠ conf.ApiKey ∧
      Auth canon p conf req =
        { reply := some (http.Error "Bad rproxy key" StatusUnauthorized),
          forwarded := [], req := req, p := p }) ∨
    (Header.Get canon req.Header conf.ApiKeyHeader = conf.ApiKey ∧
      GoMap.index p.proxies (Header.Get canon req.Header conf.HostHeader) = none ∧
      Auth canon p conf req =
        { reply := some (http.Error "Bad rproxy host" StatusBadRequest),
          forwarded := [], req := req, p := p }) ∨
    (∃ uri, Header.Get canon req.Header conf.ApiKeyHeader = conf.ApiKey ∧
      GoMap.index p.proxies (Header.Get canon req.Header conf.HostHeader) = some uri ∧
      Auth canon p conf req =
        { reply := none, forwarded := [rewritten canon conf req uri],
          req := rewritten canon conf req uri, p := p }) := by
  by_cases hkey : Header.Get canon req.Header conf.ApiKeyHeader = conf.ApiKey
  · cases hhost : GoMap.index p.proxies (Header.Get canon req.Header conf.HostHeader) with
    | none => exact Or.inr (Or.inl ⟨hkey, rfl, Auth_of_bad_host canon p conf req hkey hhost⟩)
    | some uri =>
      exact Or.inr (Or.inr ⟨uri, hkey, rfl, Auth_of_route canon p conf req uri hkey hhost⟩)
  · exact Or.inl ⟨hkey, Auth_of_bad_key canon p conf req hkey⟩

/-! ## The access gate: rejection -/

/-- C1. A request whose API-key header value, as `Header.Get` reads it under
`conf.ApiKeyHeader`, differs from `conf.ApiKey` is answered with status 401 and the body
`Bad rproxy key`, and nothing is handed to the forwarder; the route table and the
routing header play no part. -/
theorem auth_wrong_key_is_401 (canon : String → String) (p : rproxy) (conf : Config)
    (req : Request) (hkey : Header.Get canon req.Header conf.ApiKeyHeader ≠ conf.ApiKey) :
    (Auth canon p conf req).reply = some { code := 401, body := "Bad rproxy key\n" } ∧
      (Auth canon p conf req).forwarded = [] := by
  rw [Auth_of_bad_key canon p conf req hkey]
  exact ⟨rfl, rfl⟩

/-- Scenario 2 of the specification: key `bad` against the configured `secret`, with a
routing header that the route table does resolve. -/
theorem auth_wrong_key_is_401_witness :
    GoMap.index sampleProxy.proxies
        (Header.Get CanonicalMIMEHeaderKey
          (sampleRequest [("X-Rproxy-Key", ["bad"]), ("X-Rproxy-Host", ["svc-a.internal"])]).Header
          sampleConf.HostHeader) ≠ none ∧
      (Auth CanonicalMIMEHeaderKey sampleProxy sampleConf
        (sampleRequest [("X-Rproxy-Key", ["bad"]), ("X-Rproxy-Host", ["svc-a.internal"])])).reply
        = some { code := 401, body := "Bad rproxy key\n" } ∧
      (Auth CanonicalMIMEHeaderKey sampleProxy sampleConf
        (sampleRequest [("X-Rproxy-Key", ["bad"]), ("X-Rproxy-Host", ["svc-a.internal"])])).forwarded
        = [] :=
  ⟨by decide,
    auth_wrong_key_is_401 CanonicalMIMEHeaderKey sampleProxy sampleConf
      (sampleRequest [("X-Rproxy-Key", ["bad"]), ("X-Rproxy-Host", ["svc-a.internal"])])
      (by decide)⟩

/-- C2. A request with the right key whose routing header value, as `Header.Get` reads it
under `conf.HostHeader`, is not a key of the route table is answered with status 400 and
the body `Bad rproxy host`, and nothing is handed to the forwarder. -/
theorem auth_unknown_host_is_400 (canon : String → String) (p : rproxy) (conf : Config)
    (req : Request) (hkey : Header.Get canon req.Header conf.ApiKeyHeader = conf.ApiKey)
    (hhost : GoMap.index p.proxies (Header.Get canon req.Header conf.HostHeader) = none) :
    (Auth canon p conf req).reply = some { code := 400, body := "Bad rproxy host\n" } ∧
      (Auth canon p conf req).forwarded = [] := by
  rw [Auth_of_bad_host canon p conf req hkey hhost]
  exact ⟨rfl, rfl⟩

/-- Scenario 3 of the specification: the right key with the routing header
`unknown.host`. -/
theorem auth_unknown_host_is_400_witness :
    (Auth CanonicalMIMEHeaderKey sampleProxy sampleConf
        (sampleRequest [("X-Rproxy-Key", ["secret"]), ("X-Rproxy-Host", ["unknown.host"])])).reply
        = some { code := 400, body := "Bad rproxy host\n" } ∧
      (Auth CanonicalMIMEHeaderKey sampleProxy sampleConf
        (sampleRequest [("X-Rproxy-Key", ["secret"]), ("X-Rproxy-Host", ["unknown.host"])])).forwarded
        = [] :=
  auth_unknown_host_is_400 CanonicalMIMEHeaderKey sampleProxy sampleConf
    (sampleRequest [("X-Rproxy-Key", ["secret"]), ("X-Rproxy-Host", ["unknown.host"])])
    (by decide) (by decide)

/-! ## The access gate: forwarding -/

/-- C3. A request with the right key whose routing header value resolves to `uri` in the
route table is handed to the forwarder exactly once, the handler itself writes no error,
and in the request handed over `URL.Scheme`, `URL.Host` and `Host` are those of `uri`. -/
theorem auth_forwards_to_resolved_origin (canon : String → String) (p : rproxy)
    (conf : Config) (req : Request) (uri : URL)
    (hkey : Header.Get canon req.Header conf.ApiKeyHeader = conf.ApiKey)
    (hhost : GoMap.index p.proxies (Header.Get canon req.Header conf.HostHeader) = some uri) :
    (Auth canon p conf req).reply = none ∧
      (Auth canon p conf req).forwarded.length = 1 ∧
      ∃ out, (Auth canon p conf req).forwarded = [out] ∧
        out.URL.Scheme = uri.Scheme ∧ out.URL.Host = uri.Host ∧ out.Host = uri.Host := by
  rw [Auth_of_route canon p conf req uri hkey hhost]
  exact ⟨rfl, rfl, _, rfl, rfl, rfl, rfl⟩

/-- Scenario 1 of the specification: the right key and the routing header
`svc-a.internal`, with the upstream `http://svc-a.internal` configured. -/
theorem auth_forwards_to_resolved_origin_witness :
    (Auth CanonicalMIMEHeaderKey sampleProxy sampleConf
        (sampleRequest [("X-Rproxy-Key", ["secret"]), ("X-Rproxy-Host", ["svc-a.internal"])])).reply
        = none ∧
      (Auth CanonicalMIMEHeaderKey sampleProxy sampleConf
        (sampleRequest [("X-Rproxy-Key", ["secret"]), ("X-Rproxy-Host", ["svc-a.internal"])])).forwarded.length
        = 1 ∧
      ∃ out,
        (Auth CanonicalMIMEHeaderKey sampleProxy sampleConf
          (sampleRequest [("X-Rproxy-Key", ["secret"]), ("X-Rproxy-Host", ["svc-a.internal"])])).forwarded
          = [out] ∧
        out.URL.Scheme = "http" ∧ out.URL.Host = "svc-a.internal" ∧
        out.Host = "svc-a.internal" :=
  auth_forwards_to_resolved_origin CanonicalMIMEHeaderKey sampleProxy sampleConf
    (sampleRequest [("X-Rproxy-Key", ["secret"]), ("X-Rproxy-Host", ["svc-a.internal"])])
    { URL.zero with Scheme := "http", Host := "svc-a.internal" }
    (by decide) (by decide)

theorem forwarded_eq_rewritten (canon : String → String) (p : rproxy) (conf : Config)
    (req out : Request) (hout : out ∈ (Auth canon p conf req).forwarded) :
    ∃ uri, out = rewritten canon conf req uri := by
  rcases Auth_cases canon p conf req with ⟨_, h⟩ | ⟨_, _, h⟩ | ⟨uri, _, _, h⟩
  · rw [h] at hout
    exact absurd hout (List.not_mem_nil _)
  · rw [h] at hout
    exact absurd hout (List.not_mem_nil _)
  · rw [h] at hout
    exact ⟨uri, List.mem_singleton.mp hout⟩

/-- C4. A request handed to the forwarder holds nothing under either control header:
the map has no entry under the canonical form of `conf.ApiKeyHeader` or of
`conf.HostHeader`, so `Header.Values` is empty and `Header.Get` is the empty string for both
names, whatever the inbound request carried there.  When the inbound header keys are in
canonical form, as those of a server request are, no remaining key canonicalises to
either name. -/
theorem auth_strips_control_headers (canon : String → String) (p : rproxy) (conf : Config)
    (req out : Request) (hout : out ∈ (Auth canon p conf req).forwarded) :
    GoMap.index out.Header (canon conf.ApiKeyHeader) = none ∧
      GoMap.index out.Header (canon conf.HostHeader) = none ∧
      Header.Values canon out.Header conf.ApiKeyHeader = [] ∧
      Header.Values canon out.Header conf.HostHeader = [] ∧
      Header.Get canon out.Header conf.ApiKeyHeader = "" ∧
      Header.Get canon out.Header conf.HostHeader = "" ∧
      (∀ e ∈ out.Header, e.1 ≠ canon conf.ApiKeyHeader ∧ e.1 ≠ canon conf.HostHeader) ∧
      ((∀ e ∈ req.Header, canon e.1 = e.1) →
        ∀ e ∈ out.Header,
          canon e.1 ≠ canon conf.ApiKeyHeader ∧ canon e.1 ≠ canon conf.HostHeader) := by
  obtain ⟨uri, rfl⟩ := forwarded_eq_rewritten canon p conf req out hout
  have hmem : ∀ e ∈ (rewritten canon conf req uri).Header,
      e ∈ req.Header ∧ e.1 ≠ canon conf.ApiKeyHeader ∧ e.1 ≠ canon conf.HostHeader := by
    intro e he
    have h1 := (GoMap.mem_delete _ _ e).mp he
    have h2 := (GoMap.mem_delete _ _ e).mp h1.1
    exact ⟨h2.1, h2.2, h1.2⟩
  have hkey : GoMap.index (rewritten canon conf req uri).Header (canon conf.ApiKeyHeader)
      = none := by
    show GoMap.index (GoMap.delete (GoMap.delete req.Header (canon conf.ApiKeyHeader))
      (canon conf.HostHeader)) (canon conf.ApiKeyHeader) = none
    by_cases hsame : canon conf.ApiKeyHeader = canon conf.HostHeader
    · rw [hsame]
      exact GoMap.index_delete_self _ _
    · rw [GoMap.index_delete_of_ne _ _ _ hsame]
      exact GoMap.index_delete_self _ _
  have hhost : GoMap.index (rewritten canon conf req uri).Header (canon conf.HostHeader)
      = none := GoMap.index_delete_self _ _
  refine ⟨hkey, hhost, ?_, ?_, ?_, ?_, ?_, ?_⟩
  · simp only [Header.Values, hkey]
  · simp only [Header.Values, hhost]
  · simp only [Header.Get, hkey]
  · simp only [Header.Get, hhost]
  · intro e he
    exact (hmem e he).2
  · intro hcanon e he
    obtain ⟨h1, h2, h3⟩ := hmem e he
    rw [hcanon e h1]
    exact ⟨h2, h3⟩

/-- A forwarded request whose inbound form carried two values under each control
header. -/
theorem auth_strips_control_headers_witness :
    ∃ out,
      out ∈ (Auth CanonicalMIMEHeaderKey sampleProxy sampleConf
        (sampleRequest [("X-Rproxy-Key", ["secret", "spare"]),
          ("X-Rproxy-Host", ["svc-a.internal", "unknown.host"]), ("Accept", ["*/*"])])).forwarded ∧
      Header.Values CanonicalMIMEHeaderKey out.Header sampleConf.ApiKeyHeader = [] ∧
      Header.Values CanonicalMIMEHeaderKey out.Header sampleConf.HostHeader = [] :=
  ⟨rewritten CanonicalMIMEHeaderKey sampleConf
      (sampleRequest [("X-Rproxy-Key", ["secret", "spare"]),
        ("X-Rproxy-Host", ["svc-a.internal", "unknown.host"]), ("Accept", ["*/*"])])
      { URL.zero with Scheme := "http", Host := "svc-a.internal" },
    by decide,
    (auth_strips_control_headers CanonicalMIMEHeaderKey sampleProxy sampleConf
      (sampleRequest [("X-Rproxy-Key", ["secret", "spare"]),
        ("X-Rproxy-Host", ["svc-a.internal", "unknown.host"]), ("Accept", ["*/*"])])
      _ (by decide)).2.2.1,
    (auth_strips_control_headers CanonicalMIMEHeaderKey sampleProxy sampleConf
      (sampleRequest [("X-Rproxy-Key", ["secret", "spare"]),
        ("X-Rproxy-Host", ["svc-a.internal", "unknown.host"]), ("Accept", ["*/*"])])
      _ (by decide)).2.2.2.1⟩

/-! ## The route table: construction -/

theorem NewApiProxy.loop_keeps_fields (parse : String → Except String URL) (urls : List Host)
    (p q : rproxy) (h : NewApiProxy.loop parse urls p = (some q, none)) :
    q.proxy = p.proxy ∧ q.apiKey = p.apiKey := by
  induction urls generalizing p with
  | nil =>
    simp only [NewApiProxy.loop, Prod.mk.injEq, Option.some.injEq, and_true] at h
    rw [← h]
    exact ⟨rfl, rfl⟩
  | cons a rest ih =>
    cases hp : parse a.URL with
    | error err => simp [NewApiProxy.loop, hp] at h
    | ok uri =>
      simp only [NewApiProxy.loop, hp] at h
      exact ih { p with proxies := GoMap.assign p.proxies uri.Host uri } h

theorem NewApiProxy.director_id (parse : String → Except String URL) (urls : List Host)
    (apiKey : String) (p : rproxy) (h : NewApiProxy parse urls apiKey = (some p, none))
    (r : Request) : p.proxy.Director r = r := by
  have hf := (NewApiProxy.loop_keeps_fields parse urls _ p h).1
  rw [hf]

/-! ## The access gate: frame -/

/-- C8. A request handed to the forwarder is the inbound request except for `URL.Scheme`,
`URL.Host`, `Host` and the two control headers: method, path, query and body are the
inbound ones; putting the inbound scheme, hosts and header map back gives the inbound
request, so no other field differs; the header entries are the inbound entries, in order,
without those under the canonical forms of `conf.ApiKeyHeader` and `conf.HostHeader`, so
every other header reads as before (a header name stands for its canonical form, as in
`Header.Get` and `Header.Del`); and the `Director` set by `NewApiProxy` leaves the request
as it is. -/
theorem auth_forwards_verbatim (canon : String → String) (p : rproxy) (conf : Config)
    (req out : Request) (hout : out ∈ (Auth canon p conf req).forwarded) :
    out.Method = req.Method ∧ out.URL.Path = req.URL.Path ∧
      out.URL.RawQuery = req.URL.RawQuery ∧ out.Body = req.Body ∧
      { out with
        URL := { out.URL with Scheme := req.URL.Scheme, Host := req.URL.Host },
        Host := req.Host,
        Header := req.Header } = req ∧
      (∀ e, e ∈ out.Header ↔
        e ∈ req.Header ∧ e.1 ≠ canon conf.ApiKeyHeader ∧ e.1 ≠ canon conf.HostHeader) ∧
      List.Sublist out.Header req.Header ∧
      (∀ k, k ≠ canon conf.ApiKeyHeader → k ≠ canon conf.HostHeader →
        GoMap.index out.Header k = GoMap.index req.Header k) ∧
      (∀ name, canon name ≠ canon conf.ApiKeyHeader → canon name ≠ canon conf.HostHeader →
        Header.Values canon out.Header name = Header.Values canon req.Header name ∧
        Header.Get canon out.Header name = Header.Get canon req.Header name) ∧
      (∀ parse urls apiKey, NewApiProxy parse urls apiKey = (some p, none) →
        p.proxy.Director out = out) := by
  obtain ⟨uri, rfl⟩ := forwarded_eq_rewritten canon p conf req out hout
  have hidx : ∀ k, k ≠ canon conf.ApiKeyHeader → k ≠ canon conf.HostHeader →
      GoMap.index (rewritten canon conf req uri).Header k = GoMap.index req.Header k := by
    intro k hk1 hk2
    show GoMap.index (GoMap.delete (GoMap.delete req.Header (canon conf.ApiKeyHeader))
      (canon conf.HostHeader)) k = GoMap.index req.Header k
    rw [GoMap.index_delete_of_ne _ _ _ hk2, GoMap.index_delete_of_ne _ _ _ hk1]
  refine ⟨rfl, rfl, rfl, rfl, rfl, ?_, ?_, hidx, ?_, ?_⟩
  · intro e
    show e ∈ GoMap.delete (GoMap.delete req.Header (canon conf.ApiKeyHeader))
      (canon conf.HostHeader) ↔ _
    rw [GoMap.mem_delete, GoMap.mem_delete, and_assoc]
  · exact (GoMap.delete_sublist _ _).trans (GoMap.delete_sublist _ _)
  · intro name h1 h2
    simp only [Header.Values, Header.Get, hidx (canon name) h1 h2, and_self]
  · intro parse urls apiKey hp
    exact NewApiProxy.director_id parse urls apiKey p hp _

/-- The forwarded form of `GET /items?page=2` with an `Accept` header besides the two
control headers. -/
theorem auth_forwards_verbatim_witness :
    ∃ out,
      out ∈ (Auth CanonicalMIMEHeaderKey sampleProxy sampleConf
        (sampleRequest [("X-Rproxy-Key", ["secret"]), ("Accept", ["*/*"]),
          ("X-Rproxy-Host", ["svc-a.internal"])])).forwarded ∧
      out.Method = "GET" ∧ out.URL.Path = "/items" ∧ out.URL.RawQuery = "page=2" ∧
      out.Body = "" ∧ out.Header = [("Accept", ["*/*"])] :=
  ⟨rewritten CanonicalMIMEHeaderKey sampleConf
      (sampleRequest [("X-Rproxy-Key", ["secret"]), ("Accept", ["*/*"]),
        ("X-Rproxy-Host", ["svc-a.internal"])])
      { URL.zero with Scheme := "http", Host := "svc-a.internal" },
    by decide,
    (auth_forwards_verbatim CanonicalMIMEHeaderKey sampleProxy sampleConf
      (sampleRequest [("X-Rproxy-Key", ["secret"]), ("Accept", ["*/*"]),
        ("X-Rproxy-Host", ["svc-a.internal"])])
      _ (by decide)).1,
    (auth_forwards_verbatim CanonicalMIMEHeaderKey sampleProxy sampleConf
      (sampleRequest [("X-Rproxy-Key", ["secret"]), ("Accept", ["*/*"]),
        ("X-Rproxy-Host", ["svc-a.internal"])])
      _ (by decide)).2.1,
    (auth_forwards_verbatim CanonicalMIMEHeaderKey sampleProxy sampleConf
      (sampleRequest [("X-Rproxy-Key", ["secret"]), ("Accept", ["*/*"]),
        ("X-Rproxy-Host", ["svc-a.internal"])])
      _ (by decide)).2.2.1,
    (auth_forwards_verbatim CanonicalMIMEHeaderKey sampleProxy sampleConf
      (sampleRequest [("X-Rproxy-Key", ["secret"]), ("Accept", ["*/*"]),
        ("X-Rproxy-Host", ["svc-a.internal"])])
      _ (by decide)).2.2.2.1,
    by decide⟩

/-! ## The access gate: error replies and atomicity -/

/-- C9. The error reply is one of two constants: whatever the library version, the
proxy, the configuration and the request, a reply of the handler is either status 401
with the body `Bad rproxy key` or status 400 with the body `Bad rproxy host`; hence two
rejections with the same status, under any two configurations and for any two requests,
have the same status and the same body. -/
theorem auth_reply_is_constant (canon₁ canon₂ : String → String) (p₁ p₂ : rproxy)
    (conf₁ conf₂ : Config) (req₁ req₂ : Request) (r₁ r₂ : Reply)
    (h₁ : (Auth canon₁ p₁ conf₁ req₁).reply = some r₁)
    (h₂ : (Auth canon₂ p₂ conf₂ req₂).reply = some r₂)
    (hcode : r₁.code = r₂.code) :
    r₁ = r₂ ∧
      (r₁ = { code := 401, body := "Bad rproxy key\n" } ∨
        r₁ = { code := 400, body := "Bad rproxy host\n" }) := by
  have hone : ∀ (canon : String → String) (p : rproxy) (conf : Config) (req : Request)
      (r : Reply), (Auth canon p conf req).reply = some r →
      r = { code := 401, body := "Bad rproxy key\n" } ∨
        r = { code := 400, body := "Bad rproxy host\n" } := by
    intro canon p conf req r h
    rcases Auth_cases canon p conf req with ⟨_, hA⟩ | ⟨_, _, hA⟩ | ⟨uri, _, _, hA⟩
    · rw [hA] at h
      exact Or.inl (Option.some.inj h).symm
    · rw [hA] at h
      exact Or.inr (Option.some.inj h).symm
    · rw [hA] at h
      exact absurd h (by simp)
  refine ⟨?_, hone canon₁ p₁ conf₁ req₁ r₁ h₁⟩
  rcases hone canon₁ p₁ conf₁ req₁ r₁ h₁ with e₁ | e₁ <;>
    rcases hone canon₂ p₂ conf₂ req₂ r₂ h₂ with e₂ | e₂ <;>
    subst e₁ <;> subst e₂ <;> first | rfl | exact absurd hcode (by decide)

/-- Two rejections with status 401 under two configurations that differ in key, header
names and route table. -/
theorem auth_reply_is_constant_witness :
    (Auth CanonicalMIMEHeaderKey sampleProxy sampleConf
        (sampleRequest [("X-Rproxy-Key", ["bad"])])).reply
        = some { code := 401, body := "Bad rproxy key\n" } ∧
      (Auth CanonicalMIMEHeaderKey otherProxy otherConf
        (sampleRequest [("Authorization", ["k-1"]), ("X-Target", ["svc-b.internal:8080"])])).reply
        = some { code := 401, body := "Bad rproxy key\n" } ∧
      (({ code := 401, body := "Bad rproxy key\n" } : Reply)
          = { code := 401, body := "Bad rproxy key\n" } ∧
        (({ code := 401, body := "Bad rproxy key\n" } : Reply)
            = { code := 401, body := "Bad rproxy key\n" } ∨
          ({ code := 401, body := "Bad rproxy key\n" } : Reply)
            = { code := 400, body := "Bad rproxy host\n" })) :=
  ⟨by decide, by decide,
    auth_reply_is_constant CanonicalMIMEHeaderKey CanonicalMIMEHeaderKey sampleProxy
      otherProxy sampleConf otherConf
      (sampleRequest [("X-Rproxy-Key", ["bad"])])
      (sampleRequest [("Authorization", ["k-1"]), ("X-Target", ["svc-b.internal:8080"])])
      { code := 401, body := "Bad rproxy key\n" } { code := 401, body := "Bad rproxy key\n" }
      (by decide) (by decide) rfl⟩

/-- C10. When the handler replies with an error (401 or 400) the request object is, on
return, equal to the request as it arrived, in every field and every header, and nothing
was handed to the forwarder; in every outcome the proxy object, and so its route table,
is on return the one the handler was given. -/
theorem auth_rejection_is_atomic (canon : String → String) (p : rproxy) (conf : Config)
    (req : Request) :
    (∀ r, (Auth canon p conf req).reply = some r →
        (r.code = 401 ∨ r.code = 400) ∧ (Auth canon p conf req).req = req ∧
          (Auth canon p conf req).forwarded = []) ∧
      ((Auth canon p conf req).reply = none →
        (Auth canon p conf req).forwarded = [(Auth canon p conf req).req]) ∧
      (Auth canon p conf req).p.proxies = p.proxies ∧
      (Auth canon p conf req).p = p := by
  rcases Auth_cases canon p conf req with ⟨_, hA⟩ | ⟨_, _, hA⟩ | ⟨uri, _, _, hA⟩
  · rw [hA]
    refine ⟨?_, ?_, rfl, rfl⟩
    · intro r hr
      rw [← Option.some.inj hr]
      exact ⟨Or.inl rfl, rfl, rfl⟩
    · intro h
      exact absurd h (by simp)
  · rw [hA]
    refine ⟨?_, ?_, rfl, rfl⟩
    · intro r hr
      rw [← Option.some.inj hr]
      exact ⟨Or.inr rfl, rfl, rfl⟩
    · intro h
      exact absurd h (by simp)
  · rw [hA]
    refine ⟨?_, ?_, rfl, rfl⟩
    · intro r hr
      exact absurd hr (by simp)
    · intro _
      rfl

/-- A rejected request with both control headers: they are still there on return. -/
theorem auth_rejection_is_atomic_witness :
    (Auth CanonicalMIMEHeaderKey sampleProxy sampleConf
        (sampleRequest [("X-Rproxy-Key", ["secret"]), ("X-Rproxy-Host", ["unknown.host"])])).req
      = sampleRequest [("X-Rproxy-Key", ["secret"]), ("X-Rproxy-Host", ["unknown.host"])] :=
  ((auth_rejection_is_atomic CanonicalMIMEHeaderKey sampleProxy sampleConf
      (sampleRequest [("X-Rproxy-Key", ["secret"]), ("X-Rproxy-Host", ["unknown.host"])])).1
    { code := 400, body := "Bad rproxy host\n" } (by decide)).2.1

/-! ## The route table: lookups after construction -/

theorem NewApiProxy.loop_cons_ok (parse : String → Except String URL) (a : Host)
    (rest : List Host) (p : rproxy) (uri : URL) (h : parse a.URL = .ok uri) :
    NewApiProxy.loop parse (a :: rest) p =
      NewApiProxy.loop parse rest { p with proxies := GoMap.assign p.proxies uri.Host uri } := by
  simp only [NewApiProxy.loop, h]

theorem NewApiProxy.loop_cons_error (parse : String → Except String URL) (a : Host)
    (rest : List Host) (p : rproxy) (err : String) (h : parse a.URL = .error err) :
    NewApiProxy.loop parse (a :: rest) p = (none, some err) := by
  simp only [NewApiProxy.loop, h]

/-- The loop succeeds when every origin parses. -/
theorem NewApiProxy.loop_ok_of_all (parse : String → Except String URL) (urls : List Host)
    (p : rproxy) (hall : ∀ a ∈ urls, ∃ u, parse a.URL = .ok u) :
    ∃ q, NewApiProxy.loop parse urls p = (some q, none) := by
  induction urls generalizing p with
  | nil => exact ⟨p, rfl⟩
  | cons a rest ih =>
    obtain ⟨u, hu⟩ := hall a (List.mem_cons_self _ _)
    rw [NewApiProxy.loop_cons_ok parse a rest p u hu]
    exact ih _ (fun b hb => hall b (List.mem_cons_of_mem _ hb))

/-- The loop reports an error exactly as the parse error of the first origin that does
not parse, and then returns no proxy. -/
theorem NewApiProxy.loop_error (parse : String → Except String URL) (urls : List Host)
    (p : rproxy) (r : Option rproxy) (e : String)
    (h : NewApiProxy.loop parse urls p = (r, some e)) :
    r = none ∧ ∃ pre a post, urls = pre ++ a :: post ∧
      (∀ b ∈ pre, ∃ u, parse b.URL = .ok u) ∧ parse a.URL = .error e := by
  induction urls generalizing p with
  | nil => simp [NewApiProxy.loop] at h
  | cons a rest ih =>
    cases hp : parse a.URL with
    | error err =>
      rw [NewApiProxy.loop_cons_error parse a rest p err hp] at h
      simp only [Prod.mk.injEq, Option.some.injEq] at h
      refine ⟨h.1.symm, [], a, rest, rfl, ?_, ?_⟩
      · intro b hb
        exact absurd hb (List.not_mem_nil _)
      · rw [hp, h.2]
    | ok uri =>
      rw [NewApiProxy.loop_cons_ok parse a rest p uri hp] at h
      obtain ⟨hr, pre, b, post, hsplit, hpre, hb⟩ := ih _ h
      refine ⟨hr, a :: pre, b, post, by rw [hsplit]; rfl, ?_, hb⟩
      intro c hc
      rcases List.mem_cons.mp hc with rfl | hc
      · exact ⟨uri, hp⟩
      · exact hpre c hc

/-- The loop returns either a proxy and no error, or an error and no proxy. -/
theorem NewApiProxy.loop_result (parse : String → Except String URL) (urls : List Host)
    (p : rproxy) :
    (∃ q, NewApiProxy.loop parse urls p = (some q, none)) ∨
      (∃ e, NewApiProxy.loop parse urls p = (none, some e)) := by
  induction urls generalizing p with
  | nil => exact Or.inl ⟨p, rfl⟩
  | cons a rest ih =>
    cases hp : parse a.URL with
    | error err => exact Or.inr ⟨err, NewApiProxy.loop_cons_error parse a rest p err hp⟩
    | ok uri =>
      rw [NewApiProxy.loop_cons_ok parse a rest p uri hp]
      exact ih _

/-- A successful loop parsed every origin. -/
theorem NewApiProxy.loop_all_of_ok (parse : String → Except String URL) (urls : List Host)
    (p q : rproxy) (h : NewApiProxy.loop parse urls p = (some q, none)) :
    ∀ a ∈ urls, ∃ u, parse a.URL = .ok u := by
  induction urls generalizing p with
  | nil =>
    intro a ha
    exact absurd ha (List.not_mem_nil _)
  | cons a rest ih =>
    cases hp : parse a.URL with
    | error err =>
      rw [NewApiProxy.loop_cons_error parse a rest p err hp] at h
      simp at h
    | ok uri =>
      rw [NewApiProxy.loop_cons_ok parse a rest p uri hp] at h
      intro b hb
      rcases List.mem_cons.mp hb with rfl | hb
      · exact ⟨uri, hp⟩
      · exact ih _ h b hb

/-- Origins with another authority leave the binding of `host` as it was. -/
theorem NewApiProxy.loop_index_of_no_later (parse : String → Except String URL)
    (urls : List Host) (p q : rproxy) (host : String)
    (h : NewApiProxy.loop parse urls p = (some q, none))
    (hno : ∀ c ∈ urls, ∀ w, parse c.URL = .ok w → w.Host ≠ host) :
    GoMap.index q.proxies host = GoMap.index p.proxies host := by
  induction urls generalizing p with
  | nil =>
    simp only [NewApiProxy.loop, Prod.mk.injEq, Option.some.injEq, and_true] at h
    rw [h]
  | cons a rest ih =>
    cases hp : parse a.URL with
    | error err =>
      rw [NewApiProxy.loop_cons_error parse a rest p err hp] at h
      simp at h
    | ok uri =>
      rw [NewApiProxy.loop_cons_ok parse a rest p uri hp] at h
      rw [ih _ h (fun c hc => hno c (List.mem_cons_of_mem _ hc))]
      exact GoMap.index_assign_of_ne _ _ _ _
        (fun heq => hno a (List.mem_cons_self _ _) uri hp heq.symm)

/-- The binding of an authority is the parsed form of the last origin that has it. -/
theorem NewApiProxy.loop_index_last (parse : String → Except String URL)
    (pre : List Host) (a : Host) (post : List Host) (p q : rproxy) (u : URL)
    (h : NewApiProxy.loop parse (pre ++ a :: post) p = (some q, none))
    (ha : parse a.URL = .ok u)
    (hno : ∀ c ∈ post, ∀ w, parse c.URL = .ok w → w.Host ≠ u.Host) :
    GoMap.index q.proxies u.Host = some u := by
  induction pre generalizing p with
  | nil =>
    rw [List.nil_append, NewApiProxy.loop_cons_ok parse a post p u ha] at h
    rw [NewApiProxy.loop_index_of_no_later parse post _ q u.Host h hno]
    exact GoMap.index_assign_self _ _ _
  | cons b pre ih =>
    rw [List.cons_append] at h
    cases hp : parse b.URL with
    | error err =>
      rw [NewApiProxy.loop_cons_error parse b _ p err hp] at h
      simp at h
    | ok uri =>
      rw [NewApiProxy.loop_cons_ok parse b _ p uri hp] at h
      exact ih _ h

/-- Among the origins with the authority of a given one there is a last one. -/
theorem exists_last_with_host (parse : String → Except String URL) (urls : List Host)
    (host : String) (hex : ∃ a ∈ urls, ∃ u, parse a.URL = .ok u ∧ u.Host = host) :
    ∃ pre b post v, urls = pre ++ b :: post ∧ parse b.URL = .ok v ∧ v.Host = host ∧
      ∀ c ∈ post, ∀ w, parse c.URL = .ok w → w.Host ≠ host := by
  induction urls with
  | nil =>
    obtain ⟨a, ha, _⟩ := hex
    exact absurd ha (List.not_mem_nil _)
  | cons x rest ih =>
    by_cases hrest : ∃ a ∈ rest, ∃ u, parse a.URL = .ok u ∧ u.Host = host
    · obtain ⟨pre, b, post, v, hsplit, hb, hv, hno⟩ := ih hrest
      exact ⟨x :: pre, b, post, v, by rw [hsplit]; rfl, hb, hv, hno⟩
    · obtain ⟨a, ha, u, hu, hhost⟩ := hex
      rcases List.mem_cons.mp ha with rfl | ha
      · refine ⟨[], a, rest, u, rfl, hu, hhost, ?_⟩
        intro c hc w hw hwh
        exact hrest ⟨c, hc, w, hw, hwh⟩
      · exact absurd ⟨a, ha, u, hu, hhost⟩ hrest

/-- C5. When every configured origin parses, `NewApiProxy` returns a proxy and no error,
and in its route table the authority of each origin `U` of the list is bound to the
parsed form of the last origin of the list with that authority: the list splits as
`pre ++ b :: post` with `b` of the authority of `U`, nothing of that authority in `post`,
and the lookup gives the parsed `b`.  In particular the lookup gives the parsed `U` itself at
every position of the list after which no origin has the authority of `U`. -/
theorem newApiProxy_last_write_wins (parse : String → Except String URL)
    (urls : List Host) (apiKey : String)
    (hall : ∀ a ∈ urls, ∃ u, parse a.URL = .ok u) :
    ∃ p, NewApiProxy parse urls apiKey = (some p, none) ∧
      (∀ a ∈ urls, ∀ u, parse a.URL = .ok u →
        ∃ pre b post v, urls = pre ++ b :: post ∧ parse b.URL = .ok v ∧
          v.Host = u.Host ∧ (∀ c ∈ post, ∀ w, parse c.URL = .ok w → w.Host ≠ u.Host) ∧
          GoMap.index p.proxies u.Host = some v) ∧
      (∀ pre a post u, urls = pre ++ a :: post → parse a.URL = .ok u →
        (∀ c ∈ post, ∀ w, parse c.URL = .ok w → w.Host ≠ u.Host) →
        GoMap.index p.proxies u.Host = some u) := by
  obtain ⟨p, hp⟩ := NewApiProxy.loop_ok_of_all parse urls
    { proxies := [], proxy := { Director := fun r => r }, apiKey := apiKey } hall
  refine ⟨p, hp, ?_, ?_⟩
  · intro a ha u hu
    obtain ⟨pre, b, post, v, hsplit, hb, hv, hno⟩ :=
      exists_last_with_host parse urls u.Host ⟨a, ha, u, hu, rfl⟩
    refine ⟨pre, b, post, v, hsplit, hb, hv, hno, ?_⟩
    rw [hsplit] at hp
    rw [← hv]
    exact NewApiProxy.loop_index_last parse pre b post _ p v hp hb (by rw [hv]; exact hno)
  · intro pre a post u hsplit hu hno
    rw [hsplit] at hp
    exact NewApiProxy.loop_index_last parse pre a post _ p u hp hu hno

/-- Three origins, the first and the last with the authority `svc-a.internal`: the lookup
gives the last one, with the scheme `https`. -/
theorem newApiProxy_last_write_wins_witness :
    ∃ p, NewApiProxy sampleParse
        [{ URL := "http://svc-a.internal" }, { URL := "http://svc-b.internal:8080" },
          { URL := "https://svc-a.internal" }] "secret" = (some p, none) ∧
      GoMap.index p.proxies "svc-a.internal"
        = some { URL.zero with Scheme := "https", Host := "svc-a.internal" } ∧
      GoMap.index p.proxies "svc-b.internal:8080"
        = some { URL.zero with Scheme := "http", Host := "svc-b.internal:8080" } := by
  obtain ⟨p, hp, _, hlast⟩ := newApiProxy_last_write_wins sampleParse
    [{ URL := "http://svc-a.internal" }, { URL := "http://svc-b.internal:8080" },
      { URL := "https://svc-a.internal" }] "secret"
    (by
      intro a ha
      simp only [List.mem_cons, List.mem_singleton, List.not_mem_nil, or_false] at ha
      rcases ha with rfl | rfl | rfl
      · exact ⟨_, rfl⟩
      · exact ⟨_, rfl⟩
      · exact ⟨_, rfl⟩)
  refine ⟨p, hp, ?_, ?_⟩
  · exact hlast [{ URL := "http://svc-a.internal" }, { URL := "http://svc-b.internal:8080" }]
      { URL := "https://svc-a.internal" } []
      { URL.zero with Scheme := "https", Host := "svc-a.internal" } rfl rfl
      (fun c hc => absurd hc (List.not_mem_nil _))
  · refine hlast [{ URL := "http://svc-a.internal" }] { URL := "http://svc-b.internal:8080" }
      [{ URL := "https://svc-a.internal" }]
      { URL.zero with Scheme := "http", Host := "svc-b.internal:8080" } rfl rfl ?_
    intro c hc w hw
    rw [List.mem_singleton] at hc
    subst hc
    have hw2 : w = { URL.zero with Scheme := "https", Host := "svc-a.internal" } :=
      (Except.ok.inj hw).symm
    rw [hw2]
    decide

/-- C6. `NewApiProxy` returns an error if and only if some configured origin does not
parse.  When it returns an error it returns no proxy (the first component is nil), and the
error is the parse error of the first origin of the list that does not parse: the list
splits as `pre ++ a :: post` where every origin of `pre` parses and parsing `a` gives that
error.  When it returns no error it returns a proxy. -/
theorem newApiProxy_error_iff (parse : String → Except String URL) (urls : List Host)
    (apiKey : String) :
    ((∃ e, (NewApiProxy parse urls apiKey).2 = some e) ↔
        ∃ a ∈ urls, ∃ e, parse a.URL = .error e) ∧
      (∀ e, (NewApiProxy parse urls apiKey).2 = some e →
        (NewApiProxy parse urls apiKey).1 = none ∧
          ∃ pre a post, urls = pre ++ a :: post ∧
            (∀ b ∈ pre, ∃ u, parse b.URL = .ok u) ∧ parse a.URL = .error e) ∧
      ((NewApiProxy parse urls apiKey).2 = none →
        ∃ p, (NewApiProxy parse urls apiKey).1 = some p) := by
  have herr : ∀ e, (NewApiProxy parse urls apiKey).2 = some e →
      (NewApiProxy parse urls apiKey).1 = none ∧
        ∃ pre a post, urls = pre ++ a :: post ∧
          (∀ b ∈ pre, ∃ u, parse b.URL = .ok u) ∧ parse a.URL = .error e := by
    intro e he
    exact NewApiProxy.loop_error parse urls _ (NewApiProxy parse urls apiKey).1 e
      (Prod.ext rfl he)
  refine ⟨⟨?_, ?_⟩, herr, ?_⟩
  · rintro ⟨e, he⟩
    obtain ⟨_, pre, a, post, hsplit, _, ha⟩ := herr e he
    exact ⟨a, by rw [hsplit]; exact List.mem_append_right _ (List.mem_cons_self _ _), e, ha⟩
  · rintro ⟨a, ha, e, hae⟩
    rcases NewApiProxy.loop_result parse urls
      { proxies := [], proxy := { Director := fun r => r }, apiKey := apiKey } with
      ⟨q, hq⟩ | ⟨e', he'⟩
    · obtain ⟨u, hu⟩ := NewApiProxy.loop_all_of_ok parse urls _ q hq a ha
      rw [hae] at hu
      exact absurd hu (by simp)
    · exact ⟨e', congrArg Prod.snd he'⟩
  · intro hnone
    rcases NewApiProxy.loop_result parse urls
      { proxies := [], proxy := { Director := fun r => r }, apiKey := apiKey } with
      ⟨q, hq⟩ | ⟨e', he'⟩
    · exact ⟨q, congrArg Prod.fst hq⟩
    · have h2 : (NewApiProxy parse urls apiKey).2 = some e' := congrArg Prod.snd he'
      rw [hnone] at h2
      exact absurd h2 (by simp)

/-- Two origins that do not parse after one that does: no proxy is returned and the error
is that of the first of the two. -/
theorem newApiProxy_error_iff_witness :
    (NewApiProxy sampleParse
        [{ URL := "http://svc-a.internal" }, { URL := ":svc" }, { URL := "%zz" }] "secret").1
        = none ∧
      ∃ pre a post,
        [({ URL := "http://svc-a.internal" } : Host), { URL := ":svc" }, { URL := "%zz" }]
          = pre ++ a :: post ∧
        (∀ b ∈ pre, ∃ u, sampleParse b.URL = .ok u) ∧
        sampleParse a.URL = .error "parse \":svc\": missing protocol scheme" :=
  (newApiProxy_error_iff sampleParse
    [{ URL := "http://svc-a.internal" }, { URL := ":svc" }, { URL := "%zz" }] "secret").2.1
    "parse \":svc\": missing protocol scheme" (by decide)

/-! ## The access gate: requests without a control header -/

theorem Header.Get_of_no_values (canon : String → String) (h : Header) (key : String)
    (hv : Header.Values canon h key = []) : Header.Get canon h key = "" := by
  unfold Header.Values at hv
  unfold Header.Get
  cases hidx : GoMap.index h (canon key) with
  | none => rfl
  | some vs =>
    rw [hidx] at hv
    simp only at hv
    rw [hv]

/-- Against C7. A request without a control header can be forwarded.  With no `ApiKey`
configured, a request that has no API-key header and names a configured upstream is
handed to the forwarder; with an upstream configured without a scheme, so that its
authority is empty, a request with the right key and no routing header is handed to the
forwarder.  In both cases the handler writes no error. -/
theorem auth_forwards_without_control_header :
    (NewApiProxy sampleParse keylessConf.Host keylessConf.ApiKey = (some keylessProxy, none) ∧
      Header.Values CanonicalMIMEHeaderKey
        (sampleRequest [("X-Rproxy-Host", ["svc-a.internal"])]).Header
        keylessConf.ApiKeyHeader = [] ∧
      (Auth CanonicalMIMEHeaderKey keylessProxy keylessConf
        (sampleRequest [("X-Rproxy-Host", ["svc-a.internal"])])).reply = none ∧
      (Auth CanonicalMIMEHeaderKey keylessProxy keylessConf
        (sampleRequest [("X-Rproxy-Host", ["svc-a.internal"])])).forwarded
        = [{ sampleRequest [] with
              URL := { URL.zero with Scheme := "http", Host := "svc-a.internal",
                                     Path := "/items", RawQuery := "page=2" },
              Host := "svc-a.internal" }]) ∧
    (NewApiProxy sampleParse bareConf.Host bareConf.ApiKey = (some bareProxy, none) ∧
      Header.Values CanonicalMIMEHeaderKey
        (sampleRequest [("X-Rproxy-Key", ["secret"])]).Header bareConf.HostHeader = [] ∧
      Header.Get CanonicalMIMEHeaderKey
        (sampleRequest [("X-Rproxy-Key", ["secret"])]).Header bareConf.ApiKeyHeader
        = bareConf.ApiKey ∧
      (Auth CanonicalMIMEHeaderKey bareProxy bareConf
        (sampleRequest [("X-Rproxy-Key", ["secret"])])).reply = none ∧
      (Auth CanonicalMIMEHeaderKey bareProxy bareConf
        (sampleRequest [("X-Rproxy-Key", ["secret"])])).forwarded
        = [{ sampleRequest [] with
              URL := { URL.zero with Path := "/items", RawQuery := "page=2" },
              Host := "" }]) :=
  ⟨⟨rfl, by decide, by decide, by decide⟩, ⟨rfl, by decide, by decide, by decide, by decide⟩⟩

/-- C7, amended. A request with no value under a control header is read as carrying the
empty string there.  For a route table built by `NewApiProxy`: a request with no value
under `conf.ApiKeyHeader` is answered 401 and not forwarded when `conf.ApiKey` is not
empty; a request with the right key and no value under `conf.HostHeader` is answered 400
and not forwarded when no configured origin has an empty authority. -/
theorem auth_absent_header_reads_empty (canon : String → String)
    (parse : String → Except String URL) (urls : List Host) (apiKey : String) (p : rproxy)
    (conf : Config) (req : Request)
    (hp : NewApiProxy parse urls apiKey = (some p, none)) :
    (Header.Values canon req.Header conf.ApiKeyHeader = [] → conf.ApiKey ≠ "" →
        (Auth canon p conf req).reply = some { code := 401, body := "Bad rproxy key\n" } ∧
          (Auth canon p conf req).forwarded = []) ∧
      (Header.Get canon req.Header conf.ApiKeyHeader = conf.ApiKey →
        Header.Values canon req.Header conf.HostHeader = [] →
        (∀ a ∈ urls, ∀ u, parse a.URL = .ok u → u.Host ≠ "") →
        (Auth canon p conf req).reply = some { code := 400, body := "Bad rproxy host\n" } ∧
          (Auth canon p conf req).forwarded = []) := by
  constructor
  · intro hv hne
    have hget := Header.Get_of_no_values canon req.Header conf.ApiKeyHeader hv
    have hkey : Header.Get canon req.Header conf.ApiKeyHeader ≠ conf.ApiKey := by
      rw [hget]
      exact fun h => hne h.symm
    rw [Auth_of_bad_key canon p conf req hkey]
    exact ⟨rfl, rfl⟩
  · intro hkey hv hno
    have hget := Header.Get_of_no_values canon req.Header conf.HostHeader hv
    have hidx : GoMap.index p.proxies (Header.Get canon req.Header conf.HostHeader)
        = none := by
      rw [hget, NewApiProxy.loop_index_of_no_later parse urls _ p "" hp hno]
      rfl
    rw [Auth_of_bad_host canon p conf req hkey hidx]
    exact ⟨rfl, rfl⟩

/-- With the key `secret` and the upstream `http://svc-a.internal` configured: a request
without headers is answered 401, a request with only the right key is answered 400. -/
theorem auth_absent_header_reads_empty_witness :
    ((Auth CanonicalMIMEHeaderKey sampleProxy sampleConf (sampleRequest [])).reply
        = some { code := 401, body := "Bad rproxy key\n" } ∧
      (Auth CanonicalMIMEHeaderKey sampleProxy sampleConf (sampleRequest [])).forwarded = []) ∧
    ((Auth CanonicalMIMEHeaderKey sampleProxy sampleConf
        (sampleRequest [("X-Rproxy-Key", ["secret"])])).reply
        = some { code := 400, body := "Bad rproxy host\n" } ∧
      (Auth CanonicalMIMEHeaderKey sampleProxy sampleConf
        (sampleRequest [("X-Rproxy-Key", ["secret"])])).forwarded = []) :=
  ⟨(auth_absent_header_reads_empty CanonicalMIMEHeaderKey sampleParse sampleConf.Host
      sampleConf.ApiKey sampleProxy sampleConf (sampleRequest []) rfl).1
      (by decide) (by decide),
    (auth_absent_header_reads_empty CanonicalMIMEHeaderKey sampleParse sampleConf.Host
      sampleConf.ApiKey sampleProxy sampleConf (sampleRequest [("X-Rproxy-Key", ["secret"])])
      rfl).2
      (by decide) (by decide)
      (by
        intro a ha u hu
        have ha2 : a = { URL := "http://svc-a.internal" } := List.mem_singleton.mp ha
        subst ha2
        have hu2 : u = { URL.zero with Scheme := "http", Host := "svc-a.internal" } :=
          (Except.ok.inj hu).symm
        rw [hu2]
        decide)⟩

end Rproxy
